import Mathlib

/-!
Formal model of the `yt2raindrop` utility (`src/main.py`, `src/protocol_types.py`).

The program exports a user's YouTube liked videos and/or a named playlist's
videos to the Raindrop.io bookmarking service.  The model below embeds, function
by function, the paginator `list_key_items_from_pages`, the playlist resolver
`get_playlist_id`, the two collectors `get_liked_videos` / `get_playlist_videos`,
the exporter `add_to_raindrop` / `add_videos_to_raindrop`, the file writer
`save_video_info_to_file` (together with a JSON parser used to state its
round-trip property), and the orchestrator `main`.  External effects (HTTP
responses, prints, sleeps, file writes) are modelled as explicit event traces;
a raised Python exception is an `Except.error`.
-/

namespace Yt2Raindrop

/-- Python/JSON-style values: the shape of the raw items the YouTube client
returns.  The code treats these as opaque dictionaries and only ever reads
string-valued fields out of them. -/
inductive JVal where
  | null : JVal
  | bool : Bool → JVal
  | num : Int → JVal
  | str : String → JVal
  | arr : List JVal → JVal
  | obj : List (String × JVal) → JVal

/-- Dictionary lookup `item[key]`: `some` the value when `item` is a dictionary
with field `key`; `none` when the Python expression would raise
(`KeyError` for a missing field, `TypeError` on a non-dictionary). -/
def jget : JVal → String → Option JVal
  | .obj kvs, key => (kvs.find? (fun kv => kv.1 == key)).map (fun kv => kv.2)
  | _, _ => none

/-- Python truthiness of a value, as tested by `if not playlist_id:`. -/
def pyFalsy : JVal → Bool
  | .null => true
  | .bool b => !b
  | .num n => n == 0
  | .str s => s.isEmpty
  | .arr l => l.isEmpty
  | .obj l => l.isEmpty

/-- A raised Python exception that aborts the current run.  A missing
dictionary field (`KeyError`) is the only exception the modelled code paths
can raise. -/
inductive PyErr where
  | keyError : PyErr
deriving DecidableEq

/-- Model of `list(...)` over a generator whose element production can raise: all
elements are produced in order unless one raises, in which case the exception
escapes the materialization (fail-fast, no element is skipped). -/
def materialize (f : α → Except PyErr β) : List α → Except PyErr (List β)
  | [] => .ok []
  | a :: l =>
    match f a with
    | .error e => .error e
    | .ok b =>
      match materialize f l with
      | .error e => .error e
      | .ok bs => .ok (b :: bs)

/-- One page response, restricted to its list-valued fields.  The paginator
only reads `response.get(key, [])` out of a page; everything else in the
response is consumed opaquely by `list_next`. -/
abbrev PageResponse := List (String × List JVal)

/-- Lookup `response.get(key, [])`: the items at `key`, or `[]` when the key is
absent from the page response. -/
def getItems (response : PageResponse) (key : String) : List JVal :=
  match response.find? (fun kv => kv.1 == key) with
  | some kv => kv.2
  | none => []

/-- The `HasListPaging` protocol of `src/protocol_types.py`: `list(**kwargs)`
yields an initial request (whose truthiness the `while request:` loop tests),
`execute` fetches a page, `list_next(previous_request, previous_response)`
yields the next request or `None`. -/
structure HasListPaging (Req : Type) where
  listReq : Option Req
  execute : Req → PageResponse
  list_next : Req → PageResponse → Option Req

/-- The `while request:` loop body of `list_key_items_from_pages`, with `fuel`
bounding the number of iterations (the Python loop is unbounded; `none`
reports fuel exhaustion and is never reached at sufficient fuel).  Returns the
items yielded in order, paired with the number of `execute` calls issued. -/
def pagingLoop {Req : Type} (res : HasListPaging Req) (key : String) :
    Nat → Option Req → Option (List JVal × Nat)
  | _, none => some ([], 0)
  | 0, some _ => none
  | fuel + 1, some request =>
    let response := res.execute request
    match pagingLoop res key fuel (res.list_next request response) with
    | some (items, n) => some (getItems response key ++ items, n + 1)
    | none => none

/-- Paginator `list_key_items_from_pages(yt_obj, key, **kwargs)`: issue the initial list
request, then repeatedly execute it, yield the items found at `key`, and ask
for the next request, until `list_next` returns `None`. -/
def list_key_items_from_pages {Req : Type} (res : HasListPaging Req)
    (key : String) (fuel : Nat) : Option (List JVal × Nat) :=
  pagingLoop res key fuel res.listReq

/-- A synthetic list-capable resource serving the fixed `pages` in order:
request `i` executes to page `i`, and `list_next` returns the next request
while pages remain, `none` after the last page. -/
def syntheticResource (pages : List PageResponse) : HasListPaging Nat where
  listReq := some 0
  execute := fun i => pages.getD i []
  list_next := fun i _ => if i + 1 < pages.length then some (i + 1) else none

theorem pagingLoop_synthetic (pages : List PageResponse) (key : String) :
    ∀ fuel i, i < pages.length → pages.length - i ≤ fuel →
      pagingLoop (syntheticResource pages) key fuel (some i) =
        some (((pages.drop i).map (fun p => getItems p key)).flatten,
          pages.length - i) := by
  intro fuel
  induction fuel with
  | zero => intro i hi hf; omega
  | succ f ih =>
    intro i hi hf
    have hdrop : pages.drop i = pages[i] :: pages.drop (i + 1) :=
      List.drop_eq_getElem_cons hi
    have hexec : (syntheticResource pages).execute i = pages[i] := by
      simp [syntheticResource, List.getD_eq_getElem?_getD, List.getElem?_eq_getElem hi]
    by_cases hnext : i + 1 < pages.length
    · have hrec := ih (i + 1) hnext (by omega)
      simp only [pagingLoop, hexec]
      rw [show (syntheticResource pages).list_next i pages[i] = some (i + 1) by
        simp [syntheticResource, hnext]]
      rw [hrec]
      rw [hdrop]
      simp only [List.map_cons, List.flatten_cons]
      have : pages.length - i = (pages.length - (i + 1)) + 1 := by omega
      rw [this]
    · have hlast : i + 1 = pages.length := by omega
      simp only [pagingLoop, hexec]
      rw [show (syntheticResource pages).list_next i pages[i] = none by
        simp [syntheticResource, hnext]]
      rw [show pagingLoop (syntheticResource pages) key f none = some ([], 0) by
        cases f <;> rfl]
      rw [hdrop]
      rw [show pages.drop (i + 1) = [] by
        apply List.drop_eq_nil_of_le; omega]
      simp only [List.map_cons, List.map_nil, List.flatten]
      have : pages.length - i = 1 := by omega
      rw [this]

theorem pagingLoop_synthetic_starved (pages : List PageResponse) (key : String) :
    ∀ fuel i, i < pages.length → fuel < pages.length - i →
      pagingLoop (syntheticResource pages) key fuel (some i) = none := by
  intro fuel
  induction fuel with
  | zero => intro i hi hf; rfl
  | succ f ih =>
    intro i hi hf
    have hnext : i + 1 < pages.length := by omega
    simp only [pagingLoop]
    rw [show (syntheticResource pages).list_next i
        ((syntheticResource pages).execute i) = some (i + 1) by
      simp [syntheticResource, hnext]]
    rw [ih (i + 1) hnext (by omega)]

/-- C1: over a synthetic resource with `P ≥ 1` pages, the paginator yields
exactly the cross-page concatenation of each page's items at the given key (so
exactly `N` items in original order), issues exactly `P` execute calls, and
terminates exactly when the continuation runs out: the traversal completes at
fuel `f` precisely when `f` covers all `P` pages. -/
theorem c1_paginator_pages (pages : List PageResponse) (key : String)
    (hne : pages ≠ []) :
    list_key_items_from_pages (syntheticResource pages) key pages.length =
      some ((pages.map (fun p => getItems p key)).flatten, pages.length)
    ∧ ∀ fuel, (list_key_items_from_pages (syntheticResource pages) key
        fuel).isSome = true ↔ pages.length ≤ fuel := by
  have hpos : 0 < pages.length := List.length_pos.mpr hne
  constructor
  · have h := pagingLoop_synthetic pages key pages.length 0 hpos (by omega)
    simpa [list_key_items_from_pages, syntheticResource] using h
  · intro fuel
    constructor
    · intro hs
      by_contra hlt
      have h := pagingLoop_synthetic_starved pages key fuel 0 hpos (by omega)
      rw [list_key_items_from_pages, show (syntheticResource pages).listReq
        = some 0 from rfl, h] at hs
      simp at hs
    · intro hle
      have h := pagingLoop_synthetic pages key fuel 0 hpos (by omega)
      rw [list_key_items_from_pages, show (syntheticResource pages).listReq
        = some 0 from rfl, h]
      rfl

theorem c1_witness :
    ([[("items", [JVal.str "a", JVal.str "b"])],
      [("items", [JVal.str "c"])]] : List PageResponse) ≠ []
    ∧ list_key_items_from_pages
        (syntheticResource [[("items", [JVal.str "a", JVal.str "b"])],
          [("items", [JVal.str "c"])]]) "items" 2 =
        some ([JVal.str "a", JVal.str "b", JVal.str "c"], 2) :=
  ⟨List.cons_ne_nil _ _,
    (c1_paginator_pages
      [[("items", [JVal.str "a", JVal.str "b"])], [("items", [JVal.str "c"])]]
      "items" (List.cons_ne_nil _ _)).1⟩

/-- C10: a page response in which the item key is absent contributes zero
items — `response.get(key, [])` falls back to the empty list — and the
traversal still continues through all `P` pages and issues all `P` requests
rather than raising. -/
theorem c10_missing_key (pages : List PageResponse) (key : String) (i : Nat)
    (hi : i < pages.length)
    (habs : ∀ kv ∈ pages[i], kv.1 ≠ key) :
    getItems pages[i] key = []
    ∧ list_key_items_from_pages (syntheticResource pages) key pages.length =
        some ((pages.map (fun p => getItems p key)).flatten, pages.length) := by
  constructor
  · rw [getItems, List.find?_eq_none.mpr]
    intro kv hkv
    simpa using habs kv hkv
  · have h := pagingLoop_synthetic pages key pages.length 0 (by omega) (by omega)
    simpa [list_key_items_from_pages, syntheticResource] using h

theorem c10_witness :
    (1 : Nat) < ([[("items", [JVal.str "a"])], [("other", [JVal.str "b"])],
      [("items", [JVal.str "c"])]] : List PageResponse).length
    ∧ list_key_items_from_pages
        (syntheticResource [[("items", [JVal.str "a"])],
          [("other", [JVal.str "b"])], [("items", [JVal.str "c"])]]) "items" 3 =
        some ([JVal.str "a", JVal.str "c"], 3) :=
  ⟨by decide,
    (c10_missing_key
      [[("items", [JVal.str "a"])], [("other", [JVal.str "b"])],
        [("items", [JVal.str "c"])]]
      "items" 1 (by decide) (by decide)).2⟩

/-- A normalized video record of a title and a url, as produced by the
collectors.
The code's own type annotations (`Iterable[Mapping[str, str]]`) and the
YouTube API schema fix both fields as strings. -/
structure VideoRec where
  title : String
  url : String
deriving DecidableEq

/-- The per-item projection inside `get_liked_videos`: the record whose
title is the item's snippet.title and whose url is
https://www.youtube.com/watch?v= followed by the item's id.
A missing field raises `KeyError`; per the API schema and the function's
annotation both fields are strings, so a present non-string field is likewise
modelled as a raised error. -/
def projectLiked (item : JVal) : Except PyErr VideoRec :=
  match jget item "snippet" with
  | none => .error .keyError
  | some snippet =>
    match jget snippet "title" with
    | some (.str t) =>
      match jget item "id" with
      | some (.str v) => .ok ⟨t, "https://www.youtube.com/watch?v=" ++ v⟩
      | _ => .error .keyError
    | _ => .error .keyError

/-- Collector `get_liked_videos`: every raw item of the liked-videos traversal is
projected, in order.  Pagination is modelled by the list of items it yields
(its behaviour is characterized separately on `list_key_items_from_pages`);
the generator is materialized at its sole consumption point in `main`. -/
def get_liked_videos (likedItems : List JVal) : Except PyErr (List VideoRec) :=
  materialize projectLiked likedItems

/-- The filter predicate `playlist_name == item["snippet"]["title"]` of
`get_playlist_id`: the field accesses can raise; a present non-string title
simply compares unequal. -/
def titleMatches (playlist_name : String) (item : JVal) : Except PyErr Bool :=
  match jget item "snippet" with
  | none => .error .keyError
  | some snippet =>
    match jget snippet "title" with
    | none => .error .keyError
    | some t => .ok (match t with | .str s => playlist_name == s | _ => false)

/-- Model of `first(filter(matches, items))`: the first item satisfying the lazily
evaluated predicate, `none` modelling the `StopIteration` of an exhausted
iterator.  Items past the first match are never inspected. -/
def firstMatch (playlist_name : String) : List JVal → Except PyErr (Option JVal)
  | [] => .ok none
  | item :: rest =>
    match titleMatches playlist_name item with
    | .error e => .error e
    | .ok true => .ok (some item)
    | .ok false => firstMatch playlist_name rest

/-- Resolver `get_playlist_id`: first playlist item whose title equals the target name,
then `get("id")` of it.  `excepts(StopIteration, ...)` turns an exhausted
iterator into `None`; a `KeyError` raised by `get("id")` is not caught. -/
def get_playlist_id (playlistItems : List JVal) (playlist_name : String) :
    Except PyErr (Option JVal) :=
  match firstMatch playlist_name playlistItems with
  | .error e => .error e
  | .ok none => .ok none
  | .ok (some item) =>
    match jget item "id" with
    | none => .error .keyError
    | some v => .ok (some v)

/-- The per-item projection inside `get_playlist_videos`: the record whose
title is the item's snippet.title and whose url is
https://www.youtube.com/watch?v= followed by the item's
snippet.resourceId.videoId, with missing (or, per the schema, non-string)
fields raising as in `projectLiked`. -/
def projectPlaylistItem (item : JVal) : Except PyErr VideoRec :=
  match jget item "snippet" with
  | none => .error .keyError
  | some snippet =>
    match jget snippet "title" with
    | some (.str t) =>
      match jget snippet "resourceId" with
      | none => .error .keyError
      | some rid =>
        match jget rid "videoId" with
        | some (.str v) => .ok ⟨t, "https://www.youtube.com/watch?v=" ++ v⟩
        | _ => .error .keyError
    | _ => .error .keyError

/-- The YouTube side of a run, with each paginated traversal modelled by the
item sequence it yields: the items of the liked-videos traversal, of the
my-playlists traversal, and of the playlist-items traversal for a given
`playlistId` value. -/
structure YtEnv where
  likedItems : List JVal
  playlistItems : List JVal
  playlistVideoItems : JVal → List JVal

/-- Collector `get_playlist_videos`: resolve the playlist id, return `None` when
`if not playlist_id:` fires (id `None` — or any falsy id value), otherwise
project every item of the playlist-items traversal.  The returned generator
is materialized at its sole consumption point in `main`, so projection errors
are accounted for here. -/
def get_playlist_videos (env : YtEnv) (playlist_name : String) :
    Except PyErr (Option (List VideoRec)) :=
  match get_playlist_id env.playlistItems playlist_name with
  | .error e => .error e
  | .ok none => .ok none
  | .ok (some pid) =>
    if pyFalsy pid then .ok none
    else
      match materialize projectPlaylistItem (env.playlistVideoItems pid) with
      | .error e => .error e
      | .ok videos => .ok (some videos)

/-- The title comparison as a plain Boolean predicate, defined for items whose
field accesses do not raise (used to state what `get_playlist_id` computes). -/
def titleIs (playlist_name : String) (item : JVal) : Bool :=
  match jget item "snippet" with
  | some snippet =>
    match jget snippet "title" with
    | some (.str s) => playlist_name == s
    | _ => false
  | none => false

/-- Whether an `Except` result is a normal (non-raising) one. -/
def exceptOk : Except PyErr α → Bool
  | .ok _ => true
  | .error _ => false

theorem titleMatches_eq_titleIs (name : String) (item : JVal) (b : Bool)
    (h : titleMatches name item = .ok b) : titleIs name item = b := by
  rw [titleMatches] at h
  rw [titleIs]
  cases hs : jget item "snippet" with
  | none => simp [hs] at h
  | some snippet =>
    simp only [hs] at h ⊢
    cases ht : jget snippet "title" with
    | none => simp [ht] at h
    | some t =>
      simp only [ht] at h ⊢
      cases t <;> simp_all

theorem firstMatch_eq_find (name : String) (items : List JVal)
    (hwf : ∀ item ∈ items, exceptOk (titleMatches name item) = true) :
    firstMatch name items = .ok (items.find? (titleIs name)) := by
  induction items with
  | nil => rfl
  | cons item rest ih =>
    have hhd := hwf item (List.mem_cons_self item rest)
    rw [firstMatch]
    cases hm : titleMatches name item with
    | error e => rw [hm] at hhd; exact absurd hhd (by simp [exceptOk])
    | ok b =>
      have hb := titleMatches_eq_titleIs name item b hm
      cases b with
      | true => rw [List.find?_cons_of_pos _ hb]
      | false =>
        rw [List.find?_cons_of_neg _ (by simp [hb])]
        exact ih (fun it hit => hwf it (List.mem_cons_of_mem item hit))

/-- C2: over any playlist-item sequence whose items are well-formed enough for
the traversal to complete (title access never raises, and the matched item has
an id), `get_playlist_id` returns — as a normal result, never an error — the
id of the first item whose `snippet.title` equals the target name exactly, and
`None` when the sequence is empty or holds no exact match. -/
theorem c2_playlist_resolver (name : String) (items : List JVal)
    (hwf : ∀ item ∈ items, exceptOk (titleMatches name item) = true)
    (hid : ∀ item ∈ items, titleIs name item = true →
      (jget item "id").isSome = true) :
    get_playlist_id items name =
      .ok ((items.find? (titleIs name)).bind (fun item => jget item "id")) := by
  rw [get_playlist_id, firstMatch_eq_find name items hwf]
  cases hf : items.find? (titleIs name) with
  | none => rfl
  | some item =>
    have hmem : item ∈ items := List.mem_of_find?_eq_some hf
    have htrue : titleIs name item = true := List.find?_some hf
    have := hid item hmem htrue
    cases hv : jget item "id" with
    | none => rw [hv] at this; exact absurd this (by simp)
    | some v => simp [hv]

theorem c2_witness :
    get_playlist_id
      [JVal.obj [("snippet", JVal.obj [("title", JVal.str "A")]), ("id", JVal.str "1")],
       JVal.obj [("snippet", JVal.obj [("title", JVal.str "B")]), ("id", JVal.str "2")],
       JVal.obj [("snippet", JVal.obj [("title", JVal.str "B")]), ("id", JVal.str "3")]]
      "B" = .ok (some (JVal.str "2"))
    ∧ get_playlist_id
      [JVal.obj [("snippet", JVal.obj [("title", JVal.str "A")]), ("id", JVal.str "1")],
       JVal.obj [("snippet", JVal.obj [("title", JVal.str "B")]), ("id", JVal.str "2")],
       JVal.obj [("snippet", JVal.obj [("title", JVal.str "B")]), ("id", JVal.str "3")]]
      "C" = .ok none
    ∧ get_playlist_id [] "B" = .ok none :=
  ⟨c2_playlist_resolver "B" _ (by decide) (by decide),
   c2_playlist_resolver "C" _ (by decide) (by decide),
   c2_playlist_resolver "B" [] (by decide) (by decide)⟩

/-- C7: a raw liked-videos item carrying string fields `id` and
`snippet.title` projects to exactly
the record of snippet.title and of https://www.youtube.com/watch?v=
followed by the id. -/
theorem c7_liked_projection (item : JVal) (t v : String)
    (ht : (jget item "snippet").bind (fun s => jget s "title")
      = some (JVal.str t))
    (hv : jget item "id" = some (JVal.str v)) :
    projectLiked item = .ok ⟨t, "https://www.youtube.com/watch?v=" ++ v⟩ := by
  rw [projectLiked]
  cases hs : jget item "snippet" with
  | none => rw [hs] at ht; exact absurd ht (by simp)
  | some snippet =>
    rw [hs] at ht
    simp only [Option.some_bind] at ht
    simp only [ht, hv]

theorem c7_witness :
    projectLiked
      (JVal.obj [("id", JVal.str "xyz"),
        ("snippet", JVal.obj [("title", JVal.str "T")])]) =
    .ok ⟨"T", "https://www.youtube.com/watch?v=xyz"⟩ :=
  c7_liked_projection _ "T" "xyz" rfl rfl

/-- C8: a raw playlist item carrying string fields `snippet.title` and
`snippet.resourceId.videoId` projects to exactly
the record of snippet.title and of https://www.youtube.com/watch?v=
followed by snippet.resourceId.videoId. -/
theorem c8_playlist_projection (item : JVal) (t v : String)
    (ht : (jget item "snippet").bind (fun s => jget s "title")
      = some (JVal.str t))
    (hv : ((jget item "snippet").bind (fun s => jget s "resourceId")).bind
      (fun r => jget r "videoId") = some (JVal.str v)) :
    projectPlaylistItem item =
      .ok ⟨t, "https://www.youtube.com/watch?v=" ++ v⟩ := by
  rw [projectPlaylistItem]
  cases hs : jget item "snippet" with
  | none => rw [hs] at ht; exact absurd ht (by simp)
  | some snippet =>
    rw [hs] at ht hv
    simp only [Option.some_bind] at ht hv
    cases hr : jget snippet "resourceId" with
    | none => rw [hr] at hv; exact absurd hv (by simp)
    | some rid =>
      rw [hr] at hv
      simp only [Option.some_bind] at hv
      simp only [ht, hr, hv]

theorem c8_witness :
    projectPlaylistItem
      (JVal.obj [("snippet", JVal.obj [("title", JVal.str "T"),
        ("resourceId", JVal.obj [("videoId", JVal.str "xyz")])])]) =
    .ok ⟨"T", "https://www.youtube.com/watch?v=xyz"⟩ :=
  c8_playlist_projection _ "T" "xyz" rfl rfl

theorem materialize_error_of_mem (f : α → Except PyErr β) (items : List α)
    (a : α) (hmem : a ∈ items) (e : PyErr) (herr : f a = .error e) :
    ∀ l, materialize f items ≠ .ok l := by
  induction items with
  | nil => cases hmem
  | cons hd tl ih =>
    intro l hok
    rw [materialize] at hok
    cases hhd : f hd with
    | error e' => rw [hhd] at hok; exact absurd hok (by simp)
    | ok b =>
      rw [hhd] at hok
      rcases List.mem_cons.mp hmem with heq | htl
      · rw [← heq] at hhd; rw [herr] at hhd; exact absurd hhd (by simp)
      · cases hm : materialize f tl with
        | error e' => rw [hm] at hok; exact absurd hok (by simp)
        | ok bs => exact ih htl bs hm

/-- C9: an item missing a required field (for liked videos: `id` or
`snippet.title`; for playlist videos: `snippet.title` or
`snippet.resourceId.videoId`) makes the projection raise, and that exception
aborts the whole materialized traversal: no run containing such an item ever
yields a result list, so nothing is skipped and no partial record appears. -/
theorem c9_malformed_item_fatal (item : JVal) :
    (((jget item "snippet").bind (fun s => jget s "title") = none
        ∨ jget item "id" = none) →
      projectLiked item = .error .keyError)
    ∧ (((jget item "snippet").bind (fun s => jget s "title") = none
        ∨ ((jget item "snippet").bind (fun s => jget s "resourceId")).bind
            (fun r => jget r "videoId") = none) →
      projectPlaylistItem item = .error .keyError)
    ∧ (∀ items, item ∈ items →
        (projectLiked item = .error .keyError →
          ∀ l, materialize projectLiked items ≠ .ok l)
        ∧ (projectPlaylistItem item = .error .keyError →
          ∀ l, materialize projectPlaylistItem items ≠ .ok l)) := by
  refine ⟨?_, ?_, ?_⟩
  · intro hmiss
    rw [projectLiked]
    cases hs : jget item "snippet" with
    | none => rfl
    | some snippet =>
      rw [hs] at hmiss
      simp only [Option.some_bind] at hmiss
      cases ht : jget snippet "title" with
      | none => simp [ht]
      | some t =>
        rw [ht] at hmiss
        rcases hmiss with h | h
        · exact absurd h (by simp)
        · cases t <;> simp [ht, h]
  · intro hmiss
    rw [projectPlaylistItem]
    cases hs : jget item "snippet" with
    | none => rfl
    | some snippet =>
      rw [hs] at hmiss
      simp only [Option.some_bind] at hmiss
      cases ht : jget snippet "title" with
      | none => simp [ht]
      | some t =>
        rw [ht] at hmiss
        rcases hmiss with h | h
        · exact absurd h (by simp)
        · cases t with
          | str s =>
            cases hr : jget snippet "resourceId" with
            | none => simp [ht, hr]
            | some rid =>
              rw [hr] at h
              simp only [Option.some_bind] at h
              simp [ht, hr, h]
          | null => simp [ht]
          | bool b => simp [ht]
          | num n => simp [ht]
          | arr l => simp [ht]
          | obj kvs => simp [ht]
  · intro items hmem
    exact ⟨fun herr => materialize_error_of_mem _ items item hmem _ herr,
      fun herr => materialize_error_of_mem _ items item hmem _ herr⟩

theorem c9_witness :
    projectLiked (JVal.obj [("snippet", JVal.obj []), ("id", JVal.str "x")])
      = .error PyErr.keyError
    ∧ materialize projectLiked
        [JVal.obj [("id", JVal.str "ok"),
          ("snippet", JVal.obj [("title", JVal.str "T")])],
         JVal.obj [("snippet", JVal.obj []), ("id", JVal.str "x")]]
      ≠ .ok [⟨"T", "https://www.youtube.com/watch?v=ok"⟩] := by
  have h := c9_malformed_item_fatal
    (JVal.obj [("snippet", JVal.obj []), ("id", JVal.str "x")])
  have herr := h.1 (Or.inl rfl)
  refine ⟨herr, ?_⟩
  have hmem : (JVal.obj [("snippet", JVal.obj []), ("id", JVal.str "x")]) ∈
      [JVal.obj [("id", JVal.str "ok"),
        ("snippet", JVal.obj [("title", JVal.str "T")])],
       JVal.obj [("snippet", JVal.obj []), ("id", JVal.str "x")]] :=
    List.mem_cons_of_mem _ (List.mem_cons_self _ _)
  exact (h.2.2 _ hmem).1 herr _

/-- Observable actions of the orchestrator `main`, in program order: a line
printed, a file written (name, full new content), or a call handing the merged
record list to the exporter `add_videos_to_raindrop`. -/
inductive MainEvent where
  | printLn : String → MainEvent
  | writeFile : String → String → MainEvent
  | exportCall : List VideoRec → MainEvent
deriving DecidableEq

/-- Lines 173–187 of `main`: when a (truthy) playlist name was given, fetch
its videos and report "Playlist not found." / "Empty playlist." / the found
count; returns the materialized playlist videos and the prints issued. -/
def collectPlaylist (env : YtEnv) (playlist_name : Option String) :
    Except PyErr (List VideoRec × List MainEvent) :=
  match playlist_name with
  | some name =>
    if name.isEmpty then .ok ([], [])
    else
      match get_playlist_videos env name with
      | .error e => .error e
      | .ok none => .ok ([], [.printLn "Playlist not found."])
      | .ok (some pvs) =>
        if pvs.isEmpty then .ok (pvs, [.printLn "Empty playlist."])
        else .ok (pvs, [.printLn ("Found " ++ toString pvs.length ++
          " videos in playlist `" ++ name ++ "`.")])
  | none => .ok ([], [])

/-- C5 counterexample input: one playlist titled "P" whose id is the falsy
string `""`. -/
def c5Env : YtEnv :=
  ⟨[], [JVal.obj [("snippet", JVal.obj [("title", JVal.str "P")]),
    ("id", JVal.str "")]], fun _ => []⟩

/-- C5 counterexample: name resolution yields the id `""` — not `None` — yet
`get_playlist_videos` returns the "playlist not found" sentinel, because
`if not playlist_id:` also fires on a falsy (empty-string) identifier.  So the
sentinel is not returned *exactly* when resolution yields none. -/
theorem c5_counterexample :
    get_playlist_id c5Env.playlistItems "P" = .ok (some (JVal.str ""))
    ∧ get_playlist_videos c5Env "P" = .ok none :=
  ⟨rfl, rfl⟩

/-- C5 (amended): `get_playlist_videos` returns the "playlist not found"
sentinel `none` exactly when name resolution yields `None` — or a falsy
(e.g. empty-string) identifier, which `if not playlist_id:` sends down the
same path; an existing playlist with a truthy id yields the distinct
`some`-wrapped (possibly empty) video list; and the orchestrator reports
"Playlist not found." and "Empty playlist." as distinct informational prints
on a normal (non-error) path. -/
theorem c5_not_found_sentinel (env : YtEnv) (name : String) (pid : Option JVal)
    (hres : get_playlist_id env.playlistItems name = .ok pid) :
    (get_playlist_videos env name = .ok none ↔
      (pid = none ∨ ∃ v, pid = some v ∧ pyFalsy v = true))
    ∧ (∀ v vids, pid = some v → pyFalsy v = false →
        materialize projectPlaylistItem (env.playlistVideoItems v) = .ok vids →
        get_playlist_videos env name = .ok (some vids))
    ∧ (pid = none → name.isEmpty = false →
        collectPlaylist env (some name) =
          .ok ([], [MainEvent.printLn "Playlist not found."]))
    ∧ (∀ v, pid = some v → pyFalsy v = false →
        materialize projectPlaylistItem (env.playlistVideoItems v) = .ok [] →
        name.isEmpty = false →
        collectPlaylist env (some name) =
          .ok ([], [MainEvent.printLn "Empty playlist."])) := by
  refine ⟨?_, ?_, ?_, ?_⟩
  · rw [get_playlist_videos, hres]
    cases pid with
    | none => simp
    | some v =>
      by_cases hf : pyFalsy v
      · simp [hf]
      · simp only [hf, if_neg, Bool.false_eq_true, if_false]
        cases hm : materialize projectPlaylistItem (env.playlistVideoItems v)
          with
        | error e => simp [hf]
        | ok vids => simp [hf]
  · intro v vids hpid hf hm
    rw [get_playlist_videos, hres, hpid]
    simp [hf, hm]
  · intro hpid hname
    rw [collectPlaylist, hname]
    rw [get_playlist_videos, hres, hpid]
    rfl
  · intro v hpid hf hm hname
    rw [collectPlaylist, hname]
    rw [get_playlist_videos, hres, hpid]
    simp [hf, hm]

/-- Witness environment for the amended C5: one playlist titled "P" with the
truthy id "PL1" that contains no videos. -/
def c5WitnessEnv : YtEnv :=
  ⟨[], [JVal.obj [("snippet", JVal.obj [("title", JVal.str "P")]),
    ("id", JVal.str "PL1")]], fun _ => []⟩

theorem c5_witness :
    get_playlist_videos c5WitnessEnv "P" = .ok (some [])
    ∧ collectPlaylist c5WitnessEnv (some "P") =
        .ok ([], [MainEvent.printLn "Empty playlist."]) := by
  have h := c5_not_found_sentinel c5WitnessEnv "P" (some (JVal.str "PL1")) rfl
  exact ⟨h.2.1 (JVal.str "PL1") [] rfl rfl rfl,
    h.2.2.2 (JVal.str "PL1") rfl rfl rfl rfl⟩

/-- Observable actions of the exporter, in program order: a create-bookmark
POST for a (title, url), a printed per-item indicator line, or a pacing
sleep of the given duration. -/
inductive RdEvent where
  | post : String → String → RdEvent
  | printLn : String → RdEvent
  | sleep : Rat → RdEvent
deriving DecidableEq

/-- The default `sleep_duration` of `add_videos_to_raindrop` (0.25 seconds). -/
def sleep_default : Rat := 1 / 4

/-- Uploader `add_to_raindrop(title, url)`: one POST to the create-bookmark endpoint
with the link, the title and the default collection in the body.  The
ambient HTTP world is
`status`, giving the response status code for a posted (title, url); the
returned flag is `status == 200`. -/
def add_to_raindrop (status : String → String → Nat) (title url : String) :
    List RdEvent × Bool :=
  ([.post title url], status title url == 200)

/-- The `process_video` closure inside `add_videos_to_raindrop`: upload one
record, print its ✔/❌ indicator, then sleep the pacing delay —
unconditionally, whatever the outcome. -/
def process_video (status : String → String → Nat) (sleep_duration : Rat)
    (video : VideoRec) : List RdEvent :=
  let (events, success) := add_to_raindrop status video.title video.url
  events ++ [.printLn ((if success then "✔" else "❌") ++ " " ++ video.title),
    .sleep sleep_duration]

/-- Exporter `add_videos_to_raindrop`: `consume(map(process_video, videos))` runs
`process_video` on every record, in sequence order. -/
def add_videos_to_raindrop (status : String → String → Nat)
    (videos : List VideoRec) (sleep_duration : Rat) : List RdEvent :=
  (videos.map (process_video status sleep_duration)).flatten

def isPostEvent : RdEvent → Bool
  | .post _ _ => true
  | _ => false

def isSleepEvent : RdEvent → Bool
  | .sleep _ => true
  | _ => false

/-- The indicator line printed for one record under the HTTP world `status`. -/
def indicatorLine (status : String → String → Nat) (v : VideoRec) : String :=
  (if status v.title v.url == 200 then "✔" else "❌") ++ " " ++ v.title

theorem add_videos_cons (status : String → String → Nat) (v : VideoRec)
    (vs : List VideoRec) (d : Rat) :
    add_videos_to_raindrop status (v :: vs) d =
      process_video status d v ++ add_videos_to_raindrop status vs d := by
  simp [add_videos_to_raindrop]

theorem process_video_events (status : String → String → Nat) (d : Rat)
    (v : VideoRec) :
    process_video status d v =
      [.post v.title v.url, .printLn (indicatorLine status v), .sleep d] := by
  simp [process_video, add_to_raindrop, indicatorLine]

/-- The HTTP world of the three-record example: the record titled "b" gets a
non-200 response, the others succeed. -/
def status3 : String → String → Nat := fun t _ => if t = "b" then 500 else 200

/-- C3: the exporter processes records strictly in order, emitting for each
record exactly one POST (succeeding iff the status is 200), then exactly one
✔/❌ indicator print, then exactly one pacing sleep — regardless of the
outcome, so a failure never stops later records.  POSTs are one per record in
order, sleeps number exactly one per record, and on the 3-record example with
the 2nd failing the trace shows ✔, ❌, ✔ and three sleeps. -/
theorem c3_exporter (status : String → String → Nat) (videos : List VideoRec)
    (d : Rat) :
    add_videos_to_raindrop status videos d =
      (videos.map (fun v => [RdEvent.post v.title v.url,
        RdEvent.printLn (indicatorLine status v), RdEvent.sleep d])).flatten
    ∧ (add_videos_to_raindrop status videos d).filter isPostEvent =
        videos.map (fun v => RdEvent.post v.title v.url)
    ∧ (add_videos_to_raindrop status videos d).filter isSleepEvent =
        List.replicate videos.length (RdEvent.sleep d)
    ∧ add_videos_to_raindrop status3
        [⟨"a", "ua"⟩, ⟨"b", "ub"⟩, ⟨"c", "uc"⟩] sleep_default =
      [.post "a" "ua", .printLn "✔ a", .sleep sleep_default,
       .post "b" "ub", .printLn "❌ b", .sleep sleep_default,
       .post "c" "uc", .printLn "✔ c", .sleep sleep_default] := by
  refine ⟨?_, ?_, ?_, ?_⟩
  · induction videos with
    | nil => rfl
    | cons v vs ih => rw [add_videos_cons, process_video_events, ih]; simp
  · induction videos with
    | nil => rfl
    | cons v vs ih =>
      rw [add_videos_cons, process_video_events, List.filter_append, ih]
      simp [isPostEvent]
  · induction videos with
    | nil => rfl
    | cons v vs ih =>
      rw [add_videos_cons, process_video_events, List.filter_append, ih]
      simp [isSleepEvent, List.replicate]
  · rfl

/-- Lowercase hex digit character for `n < 16`, as `json.dumps` emits. -/
def hexDigitChar (n : Nat) : Char :=
  if n < 10 then Char.ofNat (48 + n) else Char.ofNat (87 + n)

/-- The four hex digits of a code unit `n < 0x10000`, most significant
first. -/
def uEscapeDigits (n : Nat) : List Char :=
  [hexDigitChar (n / 4096 % 16), hexDigitChar (n / 256 % 16),
   hexDigitChar (n / 16 % 16), hexDigitChar (n % 16)]

/-- The `\uXXXX` escape of a code unit `n < 0x10000`. -/
def uEscape (n : Nat) : List Char :=
  '\\' :: 'u' :: uEscapeDigits n

/-- One character as `json.dumps` (default `ensure_ascii=True`) emits it
inside a string literal: two-character escapes for quote, backslash and the
named control characters, `\uXXXX` for the other control characters and all
non-ASCII (as a surrogate pair above U+FFFF), the character itself for
printable ASCII (U+0020 – U+007E). -/
def escChar (c : Char) : List Char :=
  if c = '"' then ['\\', '"']
  else if c = '\\' then ['\\', '\\']
  else if c = '\n' then ['\\', 'n']
  else if c = '\r' then ['\\', 'r']
  else if c = '\t' then ['\\', 't']
  else if c.toNat = 8 then ['\\', 'b']
  else if c.toNat = 12 then ['\\', 'f']
  else if c.toNat < 32 then uEscape c.toNat
  else if c.toNat < 127 then [c]
  else if c.toNat < 65536 then uEscape c.toNat
  else uEscape (55296 + (c.toNat - 65536) / 1024) ++
    uEscape (56320 + (c.toNat - 65536) % 1024)

/-- A string literal as `json.dumps` emits it: quote, escaped body, quote. -/
def escString (s : String) : List Char :=
  '"' :: ((s.data.map escChar).flatten ++ ['"'])

/-- Layout pieces of `json.dumps(..., indent=2)` for a list of two-field
dictionaries.  `objOpen` is `"  \x7b\n    "` (the item's own indent, the
opening brace, and the first key's indent), `keySep` the `": "` between a key
and its value, `fieldSep` the `",\n    "` between the two fields, `objClose`
the `"\n  \x7d"` closing an item. -/
def objOpen : List Char := [' ', ' ', '\x7b', '\n', ' ', ' ', ' ', ' ']

def keySep : List Char := [':', ' ']

def fieldSep : List Char := [',', '\n', ' ', ' ', ' ', ' ']

def objClose : List Char := ['\n', ' ', ' ', '\x7d']

/-- One record as `json.dumps(..., indent=2)` renders it inside the array:
`  \x7b\n    "title": <title>,\n    "url": <url>\n  \x7d`, keys in the
insertion order of the Python dict display. -/
def dumpObj (v : VideoRec) : List Char :=
  objOpen ++ escString "title" ++ keySep ++ escString v.title ++
    fieldSep ++ escString "url" ++ keySep ++ escString v.url ++ objClose

/-- The `",\n"`-separated rendered items of a non-empty array. -/
def dumpItems : List VideoRec → List Char
  | [] => []
  | [v] => dumpObj v
  | v :: vs => dumpObj v ++ ',' :: '\n' :: dumpItems vs

/-- Model of `json.dumps(video_list, indent=2)`: `[]` for the empty list, otherwise
the rendered items between `[\n` and `\n]`. -/
def dumps : List VideoRec → List Char
  | [] => ['[', ']']
  | vs => '[' :: '\n' :: (dumpItems vs ++ ['\n', ']'])

/-- Writer `save_video_info_to_file`: the file is opened in mode `"w"` (truncating),
the dumped JSON array is written, then a trailing newline; the result is the
file's full new content. -/
def save_video_info_to_file (video_list : List VideoRec) : String :=
  ⟨dumps video_list ++ ['\n']⟩

/-- The content of the destination after `save_video_info_to_file` runs on a
file previously holding `prev`: mode `"w"` truncates, so nothing of `prev`
survives. -/
def fileAfterSave (prev : String) (video_list : List VideoRec) : String :=
  save_video_info_to_file video_list

/-- JSON whitespace. -/
def isJsonWs (c : Char) : Bool :=
  c = ' ' || c = '\n' || c = '\t' || c = '\r'

def skipWs : List Char → List Char
  | [] => []
  | c :: cs => if isJsonWs c then skipWs cs else c :: cs

/-- Numeric value of one hex digit character (either case). -/
def hexVal (c : Char) : Option Nat :=
  if 48 ≤ c.toNat ∧ c.toNat ≤ 57 then some (c.toNat - 48)
  else if 97 ≤ c.toNat ∧ c.toNat ≤ 102 then some (c.toNat - 87)
  else if 65 ≤ c.toNat ∧ c.toNat ≤ 70 then some (c.toNat - 55)
  else none

/-- The character denoted by a two-character escape. -/
def shortEscape (e : Char) : Option Char :=
  if e = 'n' then some '\n'
  else if e = 't' then some '\t'
  else if e = 'r' then some '\r'
  else if e = 'b' then some (Char.ofNat 8)
  else if e = 'f' then some (Char.ofNat 12)
  else if e = '"' ∨ e = '\\' ∨ e = '/' then some e
  else none

/-- Four hex digits (as after `\u`): the code unit and the remainder. -/
def decodeHex4 (s : List Char) : Option (Nat × List Char) :=
  match s with
  | h1 :: h2 :: h3 :: h4 :: rest =>
    match hexVal h1, hexVal h2, hexVal h3, hexVal h4 with
    | some d1, some d2, some d3, some d4 =>
      some (((d1 * 16 + d2) * 16 + d3) * 16 + d4, rest)
    | _, _, _, _ => none
  | _ => none

/-- A `\uXXXX` low surrogate directly following a high one. -/
def decodeLowSurrogate (s : List Char) : Option (Nat × List Char) :=
  match s with
  | b1 :: b2 :: rest =>
    if b1 = '\\' ∧ b2 = 'u' then
      match decodeHex4 rest with
      | some (m, rest2) =>
        if 56320 ≤ m ∧ m < 57344 then some (m, rest2) else none
      | none => none
    else none
  | _ => none

/-- The body of a JSON string literal after its opening quote: the decoded
characters and the remainder after the closing quote.  Handles the short
escapes and `\uXXXX`, recombining surrogate pairs (a lone surrogate is
rejected: decoded characters are Unicode scalar values); unescaped control
characters are rejected as in strict `json.loads`.  `fuel` bounds the number
of decoded characters. -/
def parseStringBody : Nat → List Char → Option (List Char × List Char)
  | 0, _ => none
  | _ + 1, [] => none
  | fuel + 1, c :: rest =>
    if c = '"' then some ([], rest)
    else if c = '\\' then
      match rest with
      | [] => none
      | e :: rest2 =>
        if e = 'u' then
          match decodeHex4 rest2 with
          | none => none
          | some (n, rest3) =>
            if 55296 ≤ n ∧ n < 56320 then
              match decodeLowSurrogate rest3 with
              | none => none
              | some (m, rest4) =>
                (parseStringBody fuel rest4).map (fun p =>
                  (Char.ofNat (65536 + (n - 55296) * 1024 + (m - 56320))
                    :: p.1, p.2))
            else if 56320 ≤ n ∧ n < 57344 then none
            else (parseStringBody fuel rest3).map (fun p =>
              (Char.ofNat n :: p.1, p.2))
        else
          match shortEscape e with
          | some ch => (parseStringBody fuel rest2).map (fun p =>
              (ch :: p.1, p.2))
          | none => none
    else if c.toNat < 32 then none
    else (parseStringBody fuel rest).map (fun p => (c :: p.1, p.2))

/-- A JSON string literal, after optional leading whitespace. -/
def parseJString (fuel : Nat) (s : List Char) :
    Option (List Char × List Char) :=
  match skipWs s with
  | '"' :: rest => parseStringBody fuel rest
  | _ => none

/-- A `"key": "value"` member with string-literal key and value. -/
def parsePair (fuel : Nat) (s : List Char) :
    Option ((List Char × List Char) × List Char) :=
  match parseJString fuel s with
  | none => none
  | some (k, s1) =>
    match skipWs s1 with
    | ':' :: s2 =>
      match parseJString fuel s2 with
      | none => none
      | some (v, s3) => some ((k, v), s3)
    | _ => none

/-- Continuation of an object after its first member: `, member`* then `\x7d`.
`fuel` bounds the number of members. -/
def parseObjTail :
    Nat → List Char → Option (List (List Char × List Char) × List Char)
  | 0, _ => none
  | fuel + 1, s =>
    match skipWs s with
    | '\x7d' :: s1 => some ([], s1)
    | ',' :: s1 =>
      match parsePair fuel s1 with
      | none => none
      | some (p, s2) =>
        match parseObjTail fuel s2 with
        | none => none
        | some (ps, s3) => some (p :: ps, s3)
    | _ => none

/-- A JSON object whose values are all string literals. -/
def parseObj (fuel : Nat) (s : List Char) :
    Option (List (List Char × List Char) × List Char) :=
  match skipWs s with
  | '\x7b' :: s1 =>
    match skipWs s1 with
    | '\x7d' :: s2 => some ([], s2)
    | _ =>
      match parsePair fuel s1 with
      | none => none
      | some (p, s2) =>
        match parseObjTail fuel s2 with
        | none => none
        | some (ps, s3) => some (p :: ps, s3)
  | _ => none

/-- Continuation of an array of objects after its first element. -/
def parseArrTail :
    Nat → List Char →
      Option (List (List (List Char × List Char)) × List Char)
  | 0, _ => none
  | fuel + 1, s =>
    match skipWs s with
    | ']' :: s1 => some ([], s1)
    | ',' :: s1 =>
      match parseObj fuel s1 with
      | none => none
      | some (o, s2) =>
        match parseArrTail fuel s2 with
        | none => none
        | some (os, s3) => some (o :: os, s3)
    | _ => none

/-- Model of `json.loads` restricted to the document shape the writer emits — a JSON
array of flat objects with string members — rejecting any trailing content
beyond whitespace. -/
def parseVideoArray (s : List Char) :
    Option (List (List (List Char × List Char))) :=
  match skipWs s with
  | '[' :: s1 =>
    match skipWs s1 with
    | ']' :: s2 => if (skipWs s2).isEmpty then some [] else none
    | _ =>
      match parseObj (s.length + 2) s1 with
      | none => none
      | some (o, s2) =>
        match parseArrTail (s.length + 2) s2 with
        | none => none
        | some (os, s3) => if (skipWs s3).isEmpty then some (o :: os) else none
  | _ => none

/-- Interpret a parsed flat object as a video record: exactly the members
`title` then `url`. -/
def objToVideo (ps : List (List Char × List Char)) : Option VideoRec :=
  match ps with
  | [(k1, v1), (k2, v2)] =>
    if k1 = "title".data ∧ k2 = "url".data then some ⟨⟨v1⟩, ⟨v2⟩⟩ else none
  | _ => none

/-- Collect the images under `f`, failing on the first `none`. -/
def traverseOption (f : α → Option β) : List α → Option (List β)
  | List.nil => some List.nil
  | x :: xs =>
    match f x, traverseOption f xs with
    | some y, some ys => some (y :: ys)
    | _, _ => none

/-- Read a saved file back and parse it as JSON into video records. -/
def loadsVideoList (s : String) : Option (List VideoRec) :=
  match parseVideoArray s.data with
  | none => none
  | some os => traverseOption objToVideo os

theorem char_toNat_valid (c : Char) :
    c.toNat < 55296 ∨ (57343 < c.toNat ∧ c.toNat < 1114112) := by
  rw [show c.toNat = c.val.toNat from rfl]
  rcases c.valid with h | h
  · left; exact_mod_cast h
  · obtain ⟨h1, h2⟩ := h
    right
    exact ⟨by exact_mod_cast h1, by exact_mod_cast h2⟩

theorem hexVal_hexDigitChar (k : Nat) (hk : k < 16) :
    hexVal (hexDigitChar k) = some k := by
  interval_cases k <;> decide

theorem decodeHex4_uEscapeDigits (n : Nat) (hn : n < 65536) (z : List Char) :
    decodeHex4 (uEscapeDigits n ++ z) = some (n, z) := by
  have hd1 := hexVal_hexDigitChar (n / 4096 % 16) (Nat.mod_lt _ (by omega))
  have hd2 := hexVal_hexDigitChar (n / 256 % 16) (Nat.mod_lt _ (by omega))
  have hd3 := hexVal_hexDigitChar (n / 16 % 16) (Nat.mod_lt _ (by omega))
  have hd4 := hexVal_hexDigitChar (n % 16) (Nat.mod_lt _ (by omega))
  have harith : ((n / 4096 % 16 * 16 + n / 256 % 16) * 16 + n / 16 % 16) * 16
      + n % 16 = n := by omega
  simp only [uEscapeDigits, List.cons_append, List.nil_append, decodeHex4,
    hd1, hd2, hd3, hd4, harith]

theorem decodeLowSurrogate_uEscape (m : Nat) (hm1 : 56320 ≤ m)
    (hm2 : m < 57344) (z : List Char) :
    decodeLowSurrogate (uEscape m ++ z) = some (m, z) := by
  simp only [uEscape, List.append_eq, List.cons_append, decodeLowSurrogate,
    decodeHex4_uEscapeDigits m (by omega : m < 65536) z]
  simp [hm1, hm2]

theorem parseStringBody_uEscape (fuel : Nat) (n : Nat) (hn : n < 65536)
    (hsur : ¬(55296 ≤ n ∧ n < 57344)) (z : List Char) :
    parseStringBody (fuel + 1) (uEscape n ++ z) =
      (parseStringBody fuel z).map (fun p => (Char.ofNat n :: p.1, p.2)) := by
  have hA : ¬(55296 ≤ n ∧ n < 56320) := fun h => hsur ⟨h.1, by omega⟩
  have hB : ¬(56320 ≤ n ∧ n < 57344) := fun h => hsur ⟨by omega, h.2⟩
  simp only [uEscape, List.append_eq, List.cons_append, parseStringBody,
    decodeHex4_uEscapeDigits n hn z]
  rw [if_neg hA, if_neg hB]
  simp

theorem parseStringBody_u_step (fuel n : Nat) (w z : List Char)
    (hn : n < 65536) :
    parseStringBody (fuel + 1) ('\\' :: 'u' :: (uEscapeDigits n ++ (w ++ z))) =
      (if 55296 ≤ n ∧ n < 56320 then
        match decodeLowSurrogate (w ++ z) with
        | none => none
        | some (m, rest4) => (parseStringBody fuel rest4).map (fun p =>
            (Char.ofNat (65536 + (n - 55296) * 1024 + (m - 56320)) :: p.1, p.2))
      else if 56320 ≤ n ∧ n < 57344 then none
      else (parseStringBody fuel (w ++ z)).map (fun p =>
        (Char.ofNat n :: p.1, p.2))) := by
  simp only [parseStringBody, decodeHex4_uEscapeDigits n hn (w ++ z)]
  simp

theorem parseStringBody_surrogatePair (fuel : Nat) (n : Nat)
    (hlo : 65536 ≤ n) (hhi : n < 1114112) (z : List Char) :
    parseStringBody (fuel + 1) (uEscape (55296 + (n - 65536) / 1024) ++
      (uEscape (56320 + (n - 65536) % 1024) ++ z)) =
      (parseStringBody fuel z).map (fun p => (Char.ofNat n :: p.1, p.2)) := by
  have hqrange : 55296 ≤ 55296 + (n - 65536) / 1024 ∧
      55296 + (n - 65536) / 1024 < 56320 := by
    have : (n - 65536) / 1024 < 1024 := by omega
    omega
  have hlow := decodeLowSurrogate_uEscape (56320 + (n - 65536) % 1024)
    (by omega)
    (by have := Nat.mod_lt (n - 65536) (show 0 < 1024 by omega); omega) z
  rw [show uEscape (55296 + (n - 65536) / 1024) ++
      (uEscape (56320 + (n - 65536) % 1024) ++ z) =
      '\\' :: 'u' :: (uEscapeDigits (55296 + (n - 65536) / 1024) ++
        (uEscape (56320 + (n - 65536) % 1024) ++ z)) from rfl]
  rw [parseStringBody_u_step fuel (55296 + (n - 65536) / 1024)
    (uEscape (56320 + (n - 65536) % 1024)) z (by omega)]
  rw [if_pos hqrange, hlow]
  have hcombine : 65536 + (n - 65536) / 1024 * 1024 + (n - 65536) % 1024
      = n := by omega
  simp [hcombine]

theorem parseStringBody_escChar (fuel : Nat) (c : Char) (z : List Char) :
    parseStringBody (fuel + 1) (escChar c ++ z) =
      (parseStringBody fuel z).map (fun p => (c :: p.1, p.2)) := by
  rw [escChar]
  by_cases h1 : c = '"'
  · subst h1; simp [parseStringBody, shortEscape]
  rw [if_neg h1]
  by_cases h2 : c = '\\'
  · subst h2; simp [parseStringBody, shortEscape]
  rw [if_neg h2]
  by_cases h3 : c = '\n'
  · subst h3; simp [parseStringBody, shortEscape]
  rw [if_neg h3]
  by_cases h4 : c = '\r'
  · subst h4; simp [parseStringBody, shortEscape]
  rw [if_neg h4]
  by_cases h5 : c = '\t'
  · subst h5; simp [parseStringBody, shortEscape]
  rw [if_neg h5]
  by_cases h6 : c.toNat = 8
  · have hc : Char.ofNat 8 = c := by rw [← h6, Char.ofNat_toNat]
    rw [if_pos h6]
    simp [parseStringBody, shortEscape]
    rw [hc]
  rw [if_neg h6]
  by_cases h7 : c.toNat = 12
  · have hc : Char.ofNat 12 = c := by rw [← h7, Char.ofNat_toNat]
    rw [if_pos h7]
    simp [parseStringBody, shortEscape]
    rw [hc]
  rw [if_neg h7]
  by_cases h8 : c.toNat < 32
  · rw [if_pos h8, parseStringBody_uEscape fuel c.toNat (by omega) (by omega)
      z, Char.ofNat_toNat]
  rw [if_neg h8]
  by_cases h9 : c.toNat < 127
  · rw [if_pos h9]
    simp only [List.cons_append, List.nil_append, parseStringBody]
    rw [if_neg h1, if_neg h2, if_neg h8]
    simp [List.append_eq]
  rw [if_neg h9]
  by_cases h10 : c.toNat < 65536
  · have hval := char_toNat_valid c
    rw [if_pos h10, parseStringBody_uEscape fuel c.toNat h10 (by omega) z,
      Char.ofNat_toNat]
  · have hval := char_toNat_valid c
    rw [if_neg h10, List.append_assoc,
      parseStringBody_surrogatePair fuel c.toNat (by omega) (by omega) z,
      Char.ofNat_toNat]

theorem parseStringBody_escBody (cs : List Char) :
    ∀ (fuel : Nat) (z : List Char), cs.length < fuel →
      parseStringBody fuel ((cs.map escChar).flatten ++ '"' :: z) =
        some (cs, z) := by
  induction cs with
  | nil =>
    intro fuel z hf
    obtain ⟨f, rfl⟩ : ∃ f, fuel = f + 1 := ⟨fuel - 1, by omega⟩
    simp [parseStringBody]
  | cons c cs ih =>
    intro fuel z hf
    obtain ⟨f, rfl⟩ : ∃ f, fuel = f + 1 := ⟨fuel - 1, by omega⟩
    simp only [List.map_cons, List.flatten_cons, List.append_assoc]
    rw [parseStringBody_escChar, ih f z (by simpa using hf)]
    rfl

theorem skipWs_cons_of_ws (c : Char) (h : isJsonWs c = true)
    (s : List Char) : skipWs (c :: s) = skipWs s := by
  simp [skipWs, h]

theorem skipWs_cons_of_not_ws (c : Char) (h : isJsonWs c = false)
    (s : List Char) : skipWs (c :: s) = c :: s := by
  simp [skipWs, h]

theorem skipWs_append_of_ws (pre : List Char)
    (h : ∀ c ∈ pre, isJsonWs c = true) (s : List Char) :
    skipWs (pre ++ s) = skipWs s := by
  induction pre with
  | nil => rfl
  | cons c cs ih =>
    rw [List.cons_append, skipWs_cons_of_ws c (h c (List.mem_cons_self c cs))]
    exact ih (fun d hd => h d (List.mem_cons_of_mem c hd))

theorem skipWs_escString_append (s : String) (y : List Char) :
    skipWs (escString s ++ y) = escString s ++ y := by
  rw [escString, List.cons_append, skipWs_cons_of_not_ws '"' rfl]

/-- Version of `parseStringBody_escBody` with the remainder universally quantified, for
use as a rewrite rule. -/
theorem parseStringBody_escBody2 (cs : List Char) (fuel : Nat)
    (h : cs.length < fuel) :
    ∀ z, parseStringBody fuel ((cs.map escChar).flatten ++ '"' :: z) =
      some (cs, z) :=
  fun z => parseStringBody_escBody cs fuel z h

theorem parseJString_escString (k : String) (fuel : Nat) (s z : List Char)
    (h1 : skipWs s = escString k ++ z) (hk : k.data.length < fuel) :
    parseJString fuel s = some (k.data, z) := by
  simp only [parseJString, h1, escString, List.cons_append, List.append_assoc,
    List.singleton_append, List.nil_append,
    parseStringBody_escBody2 k.data fuel hk]

theorem parsePair_dump (fuel : Nat) (s : List Char) (k v : String)
    (z : List Char)
    (h1 : skipWs s = escString k ++ (keySep ++ (escString v ++ z)))
    (hk : k.data.length < fuel) (hv : v.data.length < fuel) :
    parsePair fuel s = some ((k.data, v.data), z) := by
  have hkey := parseJString_escString k fuel s
    (keySep ++ (escString v ++ z)) h1 hk
  have hval := parseJString_escString v fuel (' ' :: (escString v ++ z))
    z (by rw [skipWs_cons_of_ws ' ' rfl, skipWs_escString_append]) hv
  simp only [parsePair, hkey, keySep, List.cons_append, List.nil_append,
    skipWs_cons_of_not_ws ':' rfl, hval]

theorem parseObjTail_close (fuel : Nat) (s z : List Char)
    (h : skipWs s = '\x7d' :: z) :
    parseObjTail (fuel + 1) s = some ([], z) := by
  simp only [parseObjTail, h]

theorem parseObjTail_pair (fuel : Nat) (s s1 s2 s3 : List Char)
    (p : List Char × List Char) (ps : List (List Char × List Char))
    (h : skipWs s = ',' :: s1) (hp : parsePair fuel s1 = some (p, s2))
    (ht : parseObjTail fuel s2 = some (ps, s3)) :
    parseObjTail (fuel + 1) s = some (p :: ps, s3) := by
  simp only [parseObjTail, h, hp, ht]

/-- The members a dumped record parses to. -/
def objFields (v : VideoRec) : List (List Char × List Char) :=
  [("title".data, v.title.data), ("url".data, v.url.data)]

theorem parseObj_dumpObj (video : VideoRec) (fuel : Nat) (pre z : List Char)
    (hpre : ∀ c ∈ pre, isJsonWs c = true)
    (hf : video.title.data.length + video.url.data.length + 8 ≤ fuel) :
    parseObj fuel (pre ++ (dumpObj video ++ z)) =
      some (objFields video, z) := by
  obtain ⟨f, rfl⟩ : ∃ f, fuel = f + 2 := ⟨fuel - 2, by omega⟩
  have hp1 : parsePair (f + 2)
      ('\n' :: ' ' :: ' ' :: ' ' :: ' ' ::
        (escString "title" ++ (keySep ++ (escString video.title ++
          (fieldSep ++ (escString "url" ++ (keySep ++ (escString video.url ++
            (objClose ++ z)))))))))
      = some (("title".data, video.title.data),
          fieldSep ++ (escString "url" ++ (keySep ++ (escString video.url ++
            (objClose ++ z))))) := by
    apply parsePair_dump
    · rw [skipWs_cons_of_ws '\n' rfl, skipWs_cons_of_ws ' ' rfl,
        skipWs_cons_of_ws ' ' rfl, skipWs_cons_of_ws ' ' rfl,
        skipWs_cons_of_ws ' ' rfl, skipWs_escString_append]
    · have : ("title".data).length = 5 := rfl
      omega
    · omega
  have hp2 : parsePair (f + 1)
      ('\n' :: ' ' :: ' ' :: ' ' :: ' ' ::
        (escString "url" ++ (keySep ++ (escString video.url ++
          (objClose ++ z)))))
      = some (("url".data, video.url.data), objClose ++ z) := by
    apply parsePair_dump
    · rw [skipWs_cons_of_ws '\n' rfl, skipWs_cons_of_ws ' ' rfl,
        skipWs_cons_of_ws ' ' rfl, skipWs_cons_of_ws ' ' rfl,
        skipWs_cons_of_ws ' ' rfl, skipWs_escString_append]
    · have : ("url".data).length = 3 := rfl
      omega
    · omega
  have htail2 : parseObjTail (f + 1) (objClose ++ z) = some ([], z) :=
    parseObjTail_close f _ z
      (by simp only [objClose, List.cons_append, List.nil_append,
        skipWs_cons_of_ws '\n' rfl, skipWs_cons_of_ws ' ' rfl,
        skipWs_cons_of_not_ws '\x7d' rfl])
  have htail1 : parseObjTail (f + 2)
      (fieldSep ++ (escString "url" ++ (keySep ++ (escString video.url ++
        (objClose ++ z)))))
      = some ([("url".data, video.url.data)], z) :=
    parseObjTail_pair (f + 1) _ _ _ _ _ _
      (by simp only [fieldSep, List.cons_append, List.nil_append,
        skipWs_cons_of_not_ws ',' rfl])
      hp2 htail2
  have hskip1 : skipWs (pre ++ (dumpObj video ++ z)) =
      '\x7b' :: ('\n' :: ' ' :: ' ' :: ' ' :: ' ' ::
        (escString "title" ++ (keySep ++ (escString video.title ++
          (fieldSep ++ (escString "url" ++ (keySep ++ (escString video.url ++
            (objClose ++ z))))))))) := by
    rw [skipWs_append_of_ws pre hpre]
    simp only [dumpObj, objOpen, List.cons_append, List.append_assoc,
      List.nil_append, skipWs_cons_of_ws ' ' rfl,
      skipWs_cons_of_not_ws '\x7b' rfl]
  have hskip2 : skipWs ('\n' :: ' ' :: ' ' :: ' ' :: ' ' ::
      (escString "title" ++ (keySep ++ (escString video.title ++
        (fieldSep ++ (escString "url" ++ (keySep ++ (escString video.url ++
          (objClose ++ z))))))))) =
      '"' :: (("title".data.map escChar).flatten ++
        ('"' :: (keySep ++ (escString video.title ++
          (fieldSep ++ (escString "url" ++ (keySep ++ (escString video.url ++
            (objClose ++ z))))))))) := by
    rw [skipWs_cons_of_ws '\n' rfl, skipWs_cons_of_ws ' ' rfl,
      skipWs_cons_of_ws ' ' rfl, skipWs_cons_of_ws ' ' rfl,
      skipWs_cons_of_ws ' ' rfl, skipWs_escString_append, escString]
    simp only [List.cons_append, List.append_assoc, List.singleton_append,
      List.nil_append]
  simp only [parseObj, hskip1, hskip2, hp1, htail1, objFields]
  rfl

theorem parseArrTail_close (fuel : Nat) (s z : List Char)
    (h : skipWs s = ']' :: z) :
    parseArrTail (fuel + 1) s = some ([], z) := by
  simp only [parseArrTail, h]

theorem parseArrTail_obj (fuel : Nat) (s s1 s2 s3 : List Char)
    (o : List (List Char × List Char))
    (os : List (List (List Char × List Char)))
    (h : skipWs s = ',' :: s1) (ho : parseObj fuel s1 = some (o, s2))
    (ht : parseArrTail fuel s2 = some (os, s3)) :
    parseArrTail (fuel + 1) s = some (o :: os, s3) := by
  simp only [parseArrTail, h, ho, ht]

/-- The text that remains of a dumped non-empty array after its first item:
`",\n item"` for each further item, then the closing `"\n]"`. -/
def restItems : List VideoRec → List Char
  | [] => ['\n', ']']
  | v :: vs => ',' :: '\n' :: (dumpObj v ++ restItems vs)

theorem dumpItems_decomp (v : VideoRec) (vs : List VideoRec) :
    dumpItems (v :: vs) ++ ['\n', ']'] = dumpObj v ++ restItems vs := by
  induction vs generalizing v with
  | nil => simp [dumpItems, restItems]
  | cons w ws ih =>
    rw [show dumpItems (v :: w :: ws) =
      dumpObj v ++ ',' :: '\n' :: dumpItems (w :: ws) from rfl]
    rw [restItems, List.append_assoc, List.cons_append, List.cons_append,
      ih w]

/-- Fuel sufficient for `parseArrTail` over the remaining items. -/
def itemsFuelNeed : List VideoRec → Nat
  | [] => 2
  | v :: vs => v.title.data.length + v.url.data.length + 9 + itemsFuelNeed vs

theorem itemsFuelNeed_ge_two (vs : List VideoRec) : 2 ≤ itemsFuelNeed vs := by
  cases vs with
  | nil => simp [itemsFuelNeed]
  | cons v vs =>
    have := itemsFuelNeed_ge_two vs
    simp [itemsFuelNeed]
    omega

theorem parseArrTail_restItems (vs : List VideoRec) :
    ∀ fuel z, itemsFuelNeed vs ≤ fuel →
      parseArrTail fuel (restItems vs ++ z) = some (vs.map objFields, z) := by
  induction vs with
  | nil =>
    intro fuel z hf
    obtain ⟨f, rfl⟩ : ∃ f, fuel = f + 1 :=
      ⟨fuel - 1, by have := itemsFuelNeed_ge_two []; omega⟩
    rw [List.map_nil]
    exact parseArrTail_close f _ z
      (by simp only [restItems, List.cons_append, List.nil_append,
        skipWs_cons_of_ws '\n' rfl, skipWs_cons_of_not_ws ']' rfl])
  | cons v vs ih =>
    intro fuel z hf
    have hge := itemsFuelNeed_ge_two vs
    rw [itemsFuelNeed] at hf
    obtain ⟨f, rfl⟩ : ∃ f, fuel = f + 1 := ⟨fuel - 1, by omega⟩
    have ho := parseObj_dumpObj v f ['\n'] (restItems vs ++ z)
      (by intro c hc; simp at hc; subst hc; rfl) (by omega)
    rw [List.singleton_append] at ho
    have ht := ih f z (by omega)
    rw [List.map_cons]
    exact parseArrTail_obj f _ _ _ _ _ _
      (by simp only [restItems, List.cons_append, List.append_assoc,
        skipWs_cons_of_not_ws ',' rfl])
      ho ht

theorem uEscape_length (n : Nat) : (uEscape n).length = 6 := rfl

set_option maxHeartbeats 2000000 in
theorem escChar_length_pos (c : Char) : 1 ≤ (escChar c).length := by
  rw [escChar]
  split_ifs <;>
    simp only [uEscape_length, List.length_cons, List.length_nil,
      List.length_singleton, List.length_append] <;>
    omega

theorem flatten_map_escChar_ge (cs : List Char) :
    cs.length ≤ ((cs.map escChar).flatten).length := by
  induction cs with
  | nil => simp
  | cons c cs ih =>
    simp only [List.map_cons, List.flatten_cons, List.length_append,
      List.length_cons]
    have := escChar_length_pos c
    omega

theorem escString_length_ge (s : String) :
    s.data.length + 2 ≤ (escString s).length := by
  rw [escString]
  simp only [List.length_cons, List.length_append, List.length_singleton]
  have := flatten_map_escChar_ge s.data
  omega

theorem dumpObj_length_ge (video : VideoRec) :
    video.title.data.length + video.url.data.length + 30 ≤
      (dumpObj video).length := by
  rw [dumpObj]
  simp only [List.length_append]
  have h1 := escString_length_ge video.title
  have h2 := escString_length_ge video.url
  have h3 : (escString "title").length = 7 := rfl
  have h4 : (escString "url").length = 5 := rfl
  have h5 : objOpen.length = 8 := rfl
  have h6 : keySep.length = 2 := rfl
  have h7 : fieldSep.length = 6 := rfl
  have h8 : objClose.length = 4 := rfl
  omega

theorem restItems_fuel_le (vs : List VideoRec) :
    itemsFuelNeed vs ≤ (restItems vs).length + 2 := by
  induction vs with
  | nil => simp [itemsFuelNeed, restItems]
  | cons v vs ih =>
    rw [itemsFuelNeed, restItems]
    simp only [List.length_cons, List.length_append]
    have := dumpObj_length_ge v
    omega

theorem objToVideo_objFields (w : VideoRec) :
    objToVideo (objFields w) = some w := by
  simp [objToVideo, objFields]

theorem traverseOption_objFields (ws : List VideoRec) :
    traverseOption objToVideo (ws.map objFields) = some ws := by
  induction ws with
  | nil => rfl
  | cons w ws ih =>
    rw [List.map_cons, traverseOption, objToVideo_objFields w, ih]

theorem loads_save (videos : List VideoRec) :
    loadsVideoList (save_video_info_to_file videos) = some videos := by
  cases videos with
  | nil => rfl
  | cons v vs =>
    have hcs : (save_video_info_to_file (v :: vs)).data =
        '[' :: '\n' :: (dumpObj v ++ (restItems vs ++ ['\n'])) := by
      show dumps (v :: vs) ++ ['\n'] = _
      rw [show dumps (v :: vs) =
        '[' :: '\n' :: (dumpItems (v :: vs) ++ ['\n', ']']) from rfl]
      rw [List.cons_append, List.cons_append, dumpItems_decomp v vs,
        List.append_assoc]
    have hlen : ('[' :: '\n' :: (dumpObj v ++
        (restItems vs ++ ['\n']))).length =
        2 + ((dumpObj v).length + ((restItems vs).length + 1)) := by
      simp only [List.length_cons, List.length_append,
        List.length_singleton, List.length_nil]
      omega
    have h1 : skipWs ('\n' :: (dumpObj v ++ (restItems vs ++ ['\n']))) =
        '\x7b' :: ('\n' :: ' ' :: ' ' :: ' ' :: ' ' ::
          (escString "title" ++ (keySep ++ (escString v.title ++
            (fieldSep ++ (escString "url" ++ (keySep ++ (escString v.url ++
              (objClose ++ (restItems vs ++ ['\n'])))))))))) := by
      rw [skipWs_cons_of_ws '\n' rfl]
      simp only [dumpObj, objOpen, List.cons_append, List.append_assoc,
        List.nil_append, skipWs_cons_of_ws ' ' rfl,
        skipWs_cons_of_not_ws '\x7b' rfl]
    have ho := parseObj_dumpObj v
      (('[' :: '\n' :: (dumpObj v ++ (restItems vs ++ ['\n']))).length + 2)
      ['\n'] (restItems vs ++ ['\n'])
      (by intro c hc; simp at hc; subst hc; rfl)
      (by have := dumpObj_length_ge v; omega)
    rw [List.singleton_append] at ho
    have ht := parseArrTail_restItems vs
      (('[' :: '\n' :: (dumpObj v ++ (restItems vs ++ ['\n']))).length + 2)
      ['\n'] (by have := restItems_fuel_le vs; omega)
    have htrav := traverseOption_objFields (v :: vs)
    rw [List.map_cons] at htrav
    have hnl : skipWs ['\n'] = [] := rfl
    unfold loadsVideoList
    rw [hcs]
    unfold parseVideoArray
    simp only [skipWs_cons_of_not_ws '[' rfl, h1, ho, ht, hnl,
      List.isEmpty_nil, if_true]
    exact htrav

/-- C6: `save_video_info_to_file` replaces the destination's previous content
entirely (mode "w") with exactly one pretty-printed JSON array (indent 2)
followed by a trailing newline, and reading the file back and parsing it as
JSON recovers a list identical to the input; in particular
the singleton list of the record titled A with url u round-trips to
itself. -/
theorem c6_writer_round_trip (prev : String) (videos : List VideoRec) :
    fileAfterSave prev videos = save_video_info_to_file videos
    ∧ (save_video_info_to_file videos).data = dumps videos ++ ['\n']
    ∧ loadsVideoList (save_video_info_to_file videos) = some videos
    ∧ loadsVideoList (save_video_info_to_file [⟨"A", "u"⟩]) =
        some [⟨"A", "u"⟩] :=
  ⟨rfl, rfl, loads_save videos, loads_save [⟨"A", "u"⟩]⟩

/-- Lines 167–171 of `main`: when the liked flag is set, materialize the
liked videos and report their count; otherwise the empty list. -/
def collectLiked (env : YtEnv) (liked : Bool) :
    Except PyErr (List VideoRec × List MainEvent) :=
  if liked then
    match get_liked_videos env.likedItems with
    | .error e => .error e
    | .ok lvs => .ok (lvs,
        [.printLn ("Found " ++ toString lvs.length ++ " liked videos.")])
  else .ok ([], [])

/-- Lines 191–202 of `main`: the save-to-file block, writing each collected
list to its own file with surrounding progress prints. -/
def saveEvents (playlist_name : Option String) (liked save_to_file : Bool)
    (liked_videos playlist_videos : List VideoRec) : List MainEvent :=
  if save_to_file then
    (if liked then
      [.printLn "Saving liked videos to file.",
       .writeFile "youtube_liked_videos.jsonl"
         (save_video_info_to_file liked_videos),
       .printLn "Done saving liked videos to file."]
    else []) ++
    (match playlist_name with
     | some name =>
       if name.isEmpty then []
       else
         [.printLn "Saving playlist videos to file.",
          .writeFile ("youtube_playlist_" ++ name ++ "_videos.jsonl")
            (save_video_info_to_file playlist_videos),
          .printLn "Done saving playlist videos to file."]
     | none => [])
  else []

/-- Lines 204–208 of `main`: hand the merged list to the exporter unless it
is empty or dry-run is set, in which case report nothing to export. -/
def exportEvents (dry_run : Bool) (videos : List VideoRec) : List MainEvent :=
  if !videos.isEmpty && !dry_run then
    [.printLn "Exporting videos to Raindrop.io bookmarks...",
     .exportCall videos]
  else [.printLn "No videos to export."]

/-- The orchestrator `main` (lines 162–208): collect liked videos, collect
playlist videos, merge, optionally save each collected list to its own file,
then export to Raindrop.io unless the merged list is empty or dry-run is set.
Returns the ordered observable events of the run, or the raised exception. -/
def main (env : YtEnv) (playlist_name : Option String)
    (liked save_to_file dry_run : Bool) : Except PyErr (List MainEvent) :=
  match collectLiked env liked with
  | .error e => .error e
  | .ok (liked_videos, likedEvents) =>
    match collectPlaylist env playlist_name with
    | .error e => .error e
    | .ok (playlist_videos, playlistEvents) =>
      let videos := liked_videos ++ playlist_videos
      .ok (likedEvents ++ playlistEvents ++
        saveEvents playlist_name liked save_to_file liked_videos
          playlist_videos ++
        exportEvents dry_run videos)

def isExportEvent : MainEvent → Bool
  | .exportCall _ => true
  | _ => false

theorem collectLiked_events_shape (env : YtEnv) (liked : Bool)
    (lv : List VideoRec) (le : List MainEvent)
    (h : collectLiked env liked = .ok (lv, le)) :
    le = [] ∨ ∃ s, le = [MainEvent.printLn s] := by
  rw [collectLiked] at h
  by_cases hl : liked
  · rw [if_pos hl] at h
    cases hg : get_liked_videos env.likedItems with
    | error e => rw [hg] at h; exact absurd h (by simp)
    | ok lvs =>
      rw [hg] at h
      simp only [Except.ok.injEq, Prod.mk.injEq] at h
      exact Or.inr ⟨_, h.2.symm⟩
  · rw [if_neg hl] at h
    simp only [Except.ok.injEq, Prod.mk.injEq] at h
    exact Or.inl h.2.symm

theorem collectPlaylist_events_shape (env : YtEnv)
    (playlist_name : Option String) (pv : List VideoRec)
    (pe : List MainEvent)
    (h : collectPlaylist env playlist_name = .ok (pv, pe)) :
    pe = [] ∨ ∃ s, pe = [MainEvent.printLn s] := by
  unfold collectPlaylist at h
  split at h
  · split at h
    · simp only [Except.ok.injEq, Prod.mk.injEq] at h
      exact Or.inl h.2.symm
    · split at h
      · exact absurd h (by simp)
      · simp only [Except.ok.injEq, Prod.mk.injEq] at h
        exact Or.inr ⟨_, h.2.symm⟩
      · split at h
        · simp only [Except.ok.injEq, Prod.mk.injEq] at h
          exact Or.inr ⟨_, h.2.symm⟩
        · simp only [Except.ok.injEq, Prod.mk.injEq] at h
          exact Or.inr ⟨_, h.2.symm⟩
  · simp only [Except.ok.injEq, Prod.mk.injEq] at h
    exact Or.inl h.2.symm

theorem filter_export_of_shape (le : List MainEvent)
    (h : le = [] ∨ ∃ s, le = [MainEvent.printLn s]) :
    le.filter isExportEvent = [] := by
  rcases h with rfl | ⟨s, rfl⟩
  · rfl
  · rfl

theorem saveEvents_filter (playlist_name : Option String)
    (liked save_to_file : Bool) (lv pv : List VideoRec) :
    (saveEvents playlist_name liked save_to_file lv pv).filter
      isExportEvent = [] := by
  unfold saveEvents
  split
  · rw [List.filter_append]
    split <;> (split <;> (try split) <;> rfl)
  · rfl

theorem saveEvents_mem_likedFile (playlist_name : Option String)
    (lv pv : List VideoRec) :
    MainEvent.writeFile "youtube_liked_videos.jsonl"
      (save_video_info_to_file lv) ∈ saveEvents playlist_name true true lv
        pv := by
  unfold saveEvents
  rw [if_pos rfl, if_pos rfl]
  exact List.mem_append_left _ (by simp)

theorem exportEvents_filter (dry_run : Bool) (videos : List VideoRec) :
    (exportEvents dry_run videos).filter isExportEvent =
      (if videos ≠ [] ∧ dry_run = false
        then [MainEvent.exportCall videos] else []) := by
  unfold exportEvents
  cases dry_run with
  | true =>
    rw [show (!videos.isEmpty && !true) = false by simp]
    rw [if_neg (by simp), if_neg (by simp)]
    rfl
  | false =>
    cases videos with
    | nil =>
      rw [show (!(List.isEmpty ([] : List VideoRec)) && !false) = false by
        simp]
      rw [if_neg (by simp), if_neg (by simp)]
      rfl
    | cons v vs =>
      rw [show (!((v :: vs).isEmpty) && !false) = true by simp]
      rw [if_pos rfl, if_pos ⟨List.cons_ne_nil v vs, rfl⟩]
      rfl

theorem exportEvents_mem_noexport (dry_run : Bool) (videos : List VideoRec)
    (h : videos = [] ∨ dry_run = true) :
    MainEvent.printLn "No videos to export." ∈ exportEvents dry_run
      videos := by
  unfold exportEvents
  rcases h with rfl | rfl
  · rw [show (!(List.isEmpty ([] : List VideoRec)) && !dry_run) = false by
      simp]
    rw [if_neg (by simp)]
    simp
  · rw [show (!videos.isEmpty && !true) = false by simp]
    rw [if_neg (by simp)]
    simp

/-- C4: in `main`, the list handed to the exporter is exactly the collected
liked videos followed by the collected playlist videos; the export call is
issued iff that merged list is non-empty and the dry-run flag is unset,
otherwise the "No videos to export." message is printed; and with the liked
and save flags set, the liked list is written to
`youtube_liked_videos.jsonl`. -/
theorem c4_orchestrator (env : YtEnv) (playlist_name : Option String)
    (liked save_to_file dry_run : Bool)
    (lv pv : List VideoRec) (le pe : List MainEvent)
    (evs : List MainEvent)
    (hl : collectLiked env liked = .ok (lv, le))
    (hp : collectPlaylist env playlist_name = .ok (pv, pe))
    (hm : main env playlist_name liked save_to_file dry_run = .ok evs) :
    (evs.filter isExportEvent =
      if (lv ++ pv) ≠ [] ∧ dry_run = false
      then [MainEvent.exportCall (lv ++ pv)] else [])
    ∧ ((lv ++ pv = [] ∨ dry_run = true) →
        MainEvent.printLn "No videos to export." ∈ evs)
    ∧ (liked = true → save_to_file = true →
        MainEvent.writeFile "youtube_liked_videos.jsonl"
          (save_video_info_to_file lv) ∈ evs) := by
  unfold main at hm
  rw [hl, hp] at hm
  simp only [Except.ok.injEq] at hm
  subst hm
  have hfl := filter_export_of_shape le
    (collectLiked_events_shape env liked lv le hl)
  have hfp := filter_export_of_shape pe
    (collectPlaylist_events_shape env playlist_name pv pe hp)
  refine ⟨?_, ?_, ?_⟩
  · simp only [List.filter_append, hfl, hfp, List.nil_append,
      saveEvents_filter, exportEvents_filter]
  · intro hcond
    exact List.mem_append_right _ (exportEvents_mem_noexport dry_run
      (lv ++ pv) hcond)
  · intro hlk hsv
    subst hlk hsv
    exact List.mem_append_left _ (List.mem_append_right _
      (saveEvents_mem_likedFile playlist_name lv pv))

/-- Witness environment for C4: two liked videos, no playlists. -/
def c4Env : YtEnv :=
  ⟨[JVal.obj [("id", JVal.str "v1"),
      ("snippet", JVal.obj [("title", JVal.str "T1")])],
    JVal.obj [("id", JVal.str "v2"),
      ("snippet", JVal.obj [("title", JVal.str "T2")])]],
   [], fun _ => []⟩

/-- The liked-video records of `c4Env`. -/
def c4Liked : List VideoRec :=
  [⟨"T1", "https://www.youtube.com/watch?v=v1"⟩,
   ⟨"T2", "https://www.youtube.com/watch?v=v2"⟩]

/-- The events of the dry run over `c4Env` with `--liked` set. -/
def c4Events : List MainEvent :=
  [.printLn "Found 2 liked videos.",
   .printLn "Saving liked videos to file.",
   .writeFile "youtube_liked_videos.jsonl" (save_video_info_to_file c4Liked),
   .printLn "Done saving liked videos to file.",
   .printLn "No videos to export."]

theorem c4_witness :
    main c4Env none true true true = .ok c4Events
    ∧ c4Events.filter isExportEvent = []
    ∧ MainEvent.printLn "No videos to export." ∈ c4Events
    ∧ MainEvent.writeFile "youtube_liked_videos.jsonl"
        (save_video_info_to_file c4Liked) ∈ c4Events := by
  have h := c4_orchestrator c4Env none true true true c4Liked []
    [MainEvent.printLn "Found 2 liked videos."] [] c4Events rfl rfl rfl
  refine ⟨rfl, ?_, h.2.1 (Or.inr rfl), h.2.2 rfl rfl⟩
  have h1 := h.1
  rw [if_neg (by simp)] at h1
  simpa using h1

end Yt2Raindrop
